import Mathlib

/-!
Verification of the core logic of the Nexus AI chatbot (`app.py`):
the prompt assembler, the response sanitizer, the completion
orchestration (`get_gemini_response`), and the session-backed
transcript handling of the `index` and `clear_chat` routes.

Strings are modelled by Lean `String`; per-character replacement is
carried out on the underlying `List Char`, which is exactly what a
Python single-character `str.replace` does.  A Python exception inside
the embedded fragment is modelled by `Option`/`Except`.
-/

/-- One chat turn, as stored in `session['chat_history']`:
a dict `{'role': ..., 'parts': [...]}` with a role label and an ordered
list of text fragments. -/
structure Turn where
  role : String
  parts : List String
deriving DecidableEq, Repr

/-- Python `s.replace(c, r)` for a single-character needle `c`:
every occurrence of the character `c` in `s` is replaced by the string
`r`, all other characters are kept. -/
def pyReplaceChar (s : List Char) (c : Char) (r : List Char) : List Char :=
  match s with
  | [] => []
  | x :: xs => (if x = c then r else [x]) ++ pyReplaceChar xs c r

/-- `response.text.replace('*', '').replace('|', '').replace('\n', '<br>')`
from `get_gemini_response` (app.py line 115), on the character list. -/
def sanitizeList (s : List Char) : List Char :=
  pyReplaceChar (pyReplaceChar (pyReplaceChar s '*' []) '|' []) '\n' "<br>".data

/-- The response sanitizer on `String`. -/
def sanitize (s : String) : String :=
  String.mk (sanitizeList s.data)

/-- The line contributed by one non-final turn of the history:
`f"{role}: {' '.join(parts)}\n"` (app.py line 105). -/
def turnLine (t : Turn) : String :=
  t.role ++ ": " ++ String.intercalate " " t.parts ++ "\n"

/-- The prompt-building step of `get_gemini_response` (app.py lines 100-109):
a line per turn except the last, then `f"user: {last_user_message}\n"`
where `last_user_message` is `chat_history[-1]['parts'][0]` when the
history is non-empty and `""` otherwise.  `none` models the `IndexError`
Python raises when the last turn's `parts` list is empty. -/
def assemble (chat_history : List Turn) : Option String :=
  let conversation : String :=
    (chat_history.dropLast).foldl (fun acc t => acc ++ turnLine t) ""
  let last_user_message : Option String :=
    if chat_history.isEmpty then some ""
    else (chat_history.getLast?).bind (fun t => t.parts.head?)
  last_user_message.map (fun m => conversation ++ "user: " ++ m ++ "\n")

/-- Modelled from the spec: the assembler as §4.1 words it, where the final
line's text is the full space-joined text of the last turn.  Stated only to
compare with `assemble`, which is embedded from the source. -/
def assembleSpec (chat_history : List Turn) : Option String :=
  match chat_history.getLast? with
  | none => none
  | some last =>
      some ((chat_history.dropLast).foldl (fun acc t => acc ++ turnLine t) ""
        ++ "user: " ++ String.intercalate " " last.parts ++ "\n")

/-- The string returned when the model handle is `None`
(app.py line 97). -/
def configErrorMsg : String :=
  "Error: Gemini model is not initialized. Check API key and configuration."

/-- The string returned from the `except` clause of `get_gemini_response`
(app.py line 120), with `e` the text of the caught exception. -/
def apiErrorMsg (e : String) : String :=
  "Error: Could not connect to Nexus AI. Please try again. (" ++ e ++ ")"

/-- `get_gemini_response` (app.py lines 92-120).  `model` is whether the
global client handle is initialized (`model is not None`);
`generate_content` is the external completion client,
`Except.error e` modelling an exception with text `e`.  The
`assemble`-fails arm is the `IndexError` Python raises for
`chat_history[-1]['parts'][0]` on an empty `parts` list, caught by the
same `except` clause. -/
def get_gemini_response (model : Bool)
    (generate_content : String → Except String String)
    (chat_history : List Turn) : String :=
  if !model then configErrorMsg
  else
    match assemble chat_history with
    | none => apiErrorMsg "list index out of range"
    | some conversation =>
        match generate_content conversation with
        | Except.ok raw => sanitize raw
        | Except.error e => apiErrorMsg e

/-- The welcome transcript seeded by `index` when `'chat_history'` is not
in the session (app.py lines 133-140). -/
def initialHistory : List Turn :=
  [Turn.mk "model"
    ["Hi! I’m Nexus AI — your intelligent assistant. How can I help you today?"]]

/-- The session value read through the seeding block at the top of `index`:
an absent `'chat_history'` key is replaced by the welcome transcript. -/
def ensureHistory : Option (List Turn) → List Turn
  | none => initialHistory
  | some h => h

/-- The POST branch of `index` (app.py lines 143-159), acting on the
current history: a non-empty message (Python truthiness of the form
field) appends the user's turn, calls `get_gemini_response`, and appends
the model's turn; an empty message changes nothing. -/
def postIndex (model : Bool) (generate_content : String → Except String String)
    (history : List Turn) (msg : String) : List Turn :=
  if msg = "" then history
  else
    let h1 := history ++ [Turn.mk "user" [msg]]
    let ai := get_gemini_response model generate_content h1
    h1 ++ [Turn.mk "model" [ai]]

/-- A full POST request to `/`: the seeding block runs first, then the
POST branch; the result is the session's `'chat_history'` value after the
handler returns. -/
def postRoute (model : Bool) (generate_content : String → Except String String)
    (sess : Option (List Turn)) (msg : String) : Option (List Turn) :=
  some (postIndex model generate_content (ensureHistory sess) msg)

/-- `clear_chat` (app.py lines 178-184): `session.pop('chat_history', None)`
removes the key whatever it held. -/
def clear_chat (_sess : Option (List Turn)) : Option (List Turn) :=
  none

/-! ## Helper lemmas for the sanitizer -/

/-- The per-character action of the three replacements of `sanitize` taken
together: an asterisk and a vertical bar are removed, a newline becomes
`<br>`, every other character is kept. -/
def sanitizeChar (x : Char) : List Char :=
  if x = '*' then [] else if x = '|' then []
  else if x = '\n' then "<br>".data else [x]

lemma pyReplaceChar_append (a b : List Char) (c : Char) (r : List Char) :
    pyReplaceChar (a ++ b) c r = pyReplaceChar a c r ++ pyReplaceChar b c r := by
  induction a with
  | nil => rfl
  | cons x xs ih => simp [pyReplaceChar, ih, List.append_assoc]

lemma mem_pyReplaceChar {x : Char} {s : List Char} {c : Char} {r : List Char}
    (h : x ∈ pyReplaceChar s c r) : (x ∈ s ∧ x ≠ c) ∨ x ∈ r := by
  induction s with
  | nil => simp [pyReplaceChar] at h
  | cons y ys ih =>
    simp only [pyReplaceChar, List.mem_append] at h
    rcases h with h | h
    · by_cases hy : y = c
      · exact Or.inr (by simpa [hy] using h)
      · left
        have hx : x = y := by simpa [hy] using h
        exact ⟨by simp [hx], by simpa [hx] using hy⟩
    · rcases ih h with ⟨hmem, hne⟩ | hr
      · exact Or.inl ⟨List.mem_cons_of_mem _ hmem, hne⟩
      · exact Or.inr hr

lemma pyReplaceChar_eq_self {s : List Char} {c : Char} {r : List Char}
    (h : ∀ x ∈ s, x ≠ c) : pyReplaceChar s c r = s := by
  induction s with
  | nil => rfl
  | cons y ys ih =>
    have hy : y ≠ c := h y (by simp)
    simp [pyReplaceChar, hy, ih (fun x hx => h x (List.mem_cons_of_mem _ hx))]

lemma sanitizeList_append (a b : List Char) :
    sanitizeList (a ++ b) = sanitizeList a ++ sanitizeList b := by
  simp [sanitizeList, pyReplaceChar_append]

lemma sanitizeList_singleton (x : Char) : sanitizeList [x] = sanitizeChar x := by
  by_cases h1 : x = '*'
  · simp [sanitizeList, pyReplaceChar, sanitizeChar, h1]
  · by_cases h2 : x = '|'
    · simp [sanitizeList, pyReplaceChar, sanitizeChar, h1, h2]
    · by_cases h3 : x = '\n'
      · simp [sanitizeList, pyReplaceChar, sanitizeChar, h1, h2, h3]
      · simp [sanitizeList, pyReplaceChar, sanitizeChar, h1, h2, h3]

lemma sanitizeList_eq_flatMap (s : List Char) :
    sanitizeList s = s.flatMap sanitizeChar := by
  induction s with
  | nil => rfl
  | cons x xs ih =>
    have hx : x :: xs = [x] ++ xs := rfl
    rw [hx, sanitizeList_append, sanitizeList_singleton, ih]
    simp

lemma mem_sanitizeList {x : Char} {s : List Char} (h : x ∈ sanitizeList s) :
    x ≠ '*' ∧ x ≠ '|' ∧ x ≠ '\n' := by
  have hd : ("<br>" : String).data = ['<', 'b', 'r', '>'] := rfl
  unfold sanitizeList at h
  rcases mem_pyReplaceChar h with ⟨h2, hn⟩ | hbr
  · rcases mem_pyReplaceChar h2 with ⟨h3, hp⟩ | hf
    · rcases mem_pyReplaceChar h3 with ⟨_, ha⟩ | hf
      · exact ⟨ha, hp, hn⟩
      · simp at hf
    · simp at hf
  · have : x = '<' ∨ x = 'b' ∨ x = 'r' ∨ x = '>' := by simpa [hd] using hbr
    rcases this with h | h | h | h <;> subst h <;>
      exact ⟨by decide, by decide, by decide⟩

lemma sanitizeList_eq_self {s : List Char}
    (h : ∀ x ∈ s, x ≠ '*' ∧ x ≠ '|' ∧ x ≠ '\n') : sanitizeList s = s := by
  unfold sanitizeList
  rw [pyReplaceChar_eq_self (fun x hx => (h x hx).1),
    pyReplaceChar_eq_self (fun x hx => (h x hx).2.1),
    pyReplaceChar_eq_self (fun x hx => (h x hx).2.2)]

lemma sanitizeList_idem (s : List Char) :
    sanitizeList (sanitizeList s) = sanitizeList s :=
  sanitizeList_eq_self (fun _ hx => mem_sanitizeList hx)

/-! ## Helper lemmas for the assembler -/

lemma foldl_append_hoist (l : List String) (a : String) :
    l.foldl (fun r s => r ++ s) a = a ++ l.foldl (fun r s => r ++ s) "" := by
  induction l generalizing a with
  | nil => simp [String.append_empty]
  | cons x xs ih =>
    simp only [List.foldl_cons]
    rw [ih (a ++ x), ih ("" ++ x), String.empty_append, String.append_assoc]

lemma join_cons (x : String) (l : List String) :
    String.join (x :: l) = x ++ String.join l := by
  show (x :: l).foldl (fun r s => r ++ s) "" = x ++ l.foldl (fun r s => r ++ s) ""
  simp only [List.foldl_cons]
  rw [foldl_append_hoist, String.empty_append]

lemma foldl_turnLine (l : List Turn) (a : String) :
    l.foldl (fun acc t => acc ++ turnLine t) a = a ++ String.join (l.map turnLine) := by
  induction l generalizing a with
  | nil => simp [String.join, String.append_empty]
  | cons t ts ih =>
    simp only [List.foldl_cons, List.map_cons]
    rw [ih, join_cons, String.append_assoc]

/-! ## Claim theorems -/

/-- C1 (counterexample): on a transcript whose last turn has two text
fragments, `assemble` emits only the first fragment on the final line,
while the claim ("the full text of the last turn", i.e. `assembleSpec`)
predicts the space-joined fragments. -/
theorem assemble_full_last_text_cex :
    assemble [Turn.mk "user" ["a", "b"]] = some "user: a\n" ∧
    assembleSpec [Turn.mk "user" ["a", "b"]] = some "user: a b\n" ∧
    assemble [Turn.mk "user" ["a", "b"]] ≠ assembleSpec [Turn.mk "user" ["a", "b"]] :=
  ⟨by decide, by decide, by decide⟩

/-- C1 (amended): for every non-empty transcript whose last turn has at
least one fragment, `assemble` returns the concatenation of one
newline-terminated line `"<role>: <space-joined fragments>"` per turn
except the last, followed by the newline-terminated line
`"user: <first fragment of the last turn>"` whose label is `user`
regardless of the last turn's actual role; in particular the spec's own
example evaluates as stated. -/
theorem assemble_shape (ts : List Turn) (last : Turn) (m : String)
    (hl : ts.getLast? = some last) (hm : last.parts.head? = some m) :
    assemble ts =
      some (String.join (ts.dropLast.map turnLine) ++ "user: " ++ m ++ "\n") ∧
    assemble [Turn.mk "model" ["hello"], Turn.mk "user" ["hi"]] =
      some "model: hello\nuser: hi\n" := by
  constructor
  · have hne : ts ≠ [] := by
      intro he
      subst he
      simp at hl
    have hie : ts.isEmpty = false := List.isEmpty_eq_false.mpr hne
    unfold assemble
    simp only [hie, Bool.false_eq_true, if_false, hl, Option.some_bind, hm,
      Option.map_some']
    rw [foldl_turnLine, String.empty_append]
  · decide

/-- Witness for the amended C1 at the spec's two-turn example. -/
theorem assemble_shape_witness :
    assemble [Turn.mk "model" ["hello"], Turn.mk "user" ["hi"]] =
      some (String.join
          (([Turn.mk "model" ["hello"], Turn.mk "user" ["hi"]].dropLast).map turnLine)
        ++ "user: " ++ "hi" ++ "\n") :=
  (assemble_shape [Turn.mk "model" ["hello"], Turn.mk "user" ["hi"]]
    (Turn.mk "user" ["hi"]) "hi" rfl rfl).1

/-- C2: for every history and non-empty message, the POST branch appends
exactly the user's turn followed by a model turn holding
`get_gemini_response`'s reply, so the transcript grows by exactly two
turns; when the completion call fails, the appended model turn holds the
error string. -/
theorem post_grows_by_two (model : Bool)
    (generate_content : String → Except String String)
    (history : List Turn) (msg : String) (h : msg ≠ "") :
    postIndex model generate_content history msg =
      history ++ [Turn.mk "user" [msg],
        Turn.mk "model"
          [get_gemini_response model generate_content
            (history ++ [Turn.mk "user" [msg]])]] ∧
    (postIndex model generate_content history msg).length = history.length + 2 ∧
    (∀ p e, assemble (history ++ [Turn.mk "user" [msg]]) = some p →
      generate_content p = Except.error e →
      postIndex true generate_content history msg =
        history ++ [Turn.mk "user" [msg], Turn.mk "model" [apiErrorMsg e]]) := by
  have heq : ∀ b : Bool, postIndex b generate_content history msg =
      history ++ [Turn.mk "user" [msg],
        Turn.mk "model"
          [get_gemini_response b generate_content
            (history ++ [Turn.mk "user" [msg]])]] := by
    intro b
    simp [postIndex, h, List.append_assoc]
  refine ⟨heq model, ?_, ?_⟩
  · rw [heq model]
    simp
  · intro p e hp he
    rw [heq true]
    have : get_gemini_response true generate_content
        (history ++ [Turn.mk "user" [msg]]) = apiErrorMsg e := by
      simp [get_gemini_response, hp, he]
    rw [this]

/-- Witness for C2 at a concrete failing completion. -/
theorem post_grows_by_two_witness :
    (postIndex true (fun _ => Except.error "boom") initialHistory "hi").length =
      initialHistory.length + 2 :=
  (post_grows_by_two true (fun _ => Except.error "boom") initialHistory "hi"
    (by decide)).2.1

/-- C3: whenever the completion client fails on the assembled prompt,
`get_gemini_response` returns the user-facing error string, which embeds
the underlying error detail; being a total function into `String`, it
propagates no exception. -/
theorem respond_catches_failure
    (generate_content : String → Except String String)
    (ts : List Turn) (p e : String)
    (hp : assemble ts = some p) (he : generate_content p = Except.error e) :
    get_gemini_response true generate_content ts = apiErrorMsg e ∧
    ∃ a b : String, get_gemini_response true generate_content ts = a ++ e ++ b := by
  have hres : get_gemini_response true generate_content ts = apiErrorMsg e := by
    simp [get_gemini_response, hp, he]
  exact ⟨hres,
    "Error: Could not connect to Nexus AI. Please try again. (", ")",
    by rw [hres]; rfl⟩

/-- Witness for C3 at a concrete transcript and failing client. -/
theorem respond_catches_failure_witness :
    get_gemini_response true (fun _ => Except.error "boom")
      [Turn.mk "user" ["hi"]] = apiErrorMsg "boom" ∧
    ∃ a b : String, get_gemini_response true (fun _ => Except.error "boom")
      [Turn.mk "user" ["hi"]] = a ++ "boom" ++ b :=
  respond_catches_failure (fun _ => Except.error "boom")
    [Turn.mk "user" ["hi"]] "user: hi\n" "boom" rfl rfl

/-- C4: with no completion client configured, `get_gemini_response`
returns the fixed non-empty configuration-error string — which mentions
initialization and configuration — and its result does not depend on the
completion client, which is therefore never consulted. -/
theorem respond_unconfigured
    (generate_content generate_content' : String → Except String String)
    (ts : List Turn) :
    get_gemini_response false generate_content ts = configErrorMsg ∧
    configErrorMsg ≠ "" ∧
    (∃ a b : String, configErrorMsg = a ++ "initialized" ++ b) ∧
    (∃ a b : String, configErrorMsg = a ++ "configuration" ++ b) ∧
    get_gemini_response false generate_content ts =
      get_gemini_response false generate_content' ts :=
  ⟨rfl, by decide,
    ⟨"Error: Gemini model is not ", ". Check API key and configuration.", rfl⟩,
    ⟨"Error: Gemini model is not initialized. Check API key and ", ".", rfl⟩,
    rfl⟩

/-- C5: `sanitize` acts character by character — every asterisk is
removed, every vertical bar is removed, every newline becomes `<br>`,
all other characters are kept — and in particular
`sanitize "a*b|c\n d"` (with a real newline) is `"abc<br>d"`. -/
theorem sanitize_charwise (s : String) :
    (sanitize s).data = s.data.flatMap sanitizeChar ∧
    sanitize "a*b|c\nd" = "abc<br>d" :=
  ⟨sanitizeList_eq_flatMap s.data, by decide⟩

/-- C6: `sanitize` is idempotent on input free of asterisks, vertical
bars and newlines. -/
theorem sanitize_idem_clean (s : String)
    (h : '*' ∉ s.data ∧ '|' ∉ s.data ∧ '\n' ∉ s.data) :
    sanitize (sanitize s) = sanitize s := by
  have hs : sanitize s = s := by
    show String.mk (sanitizeList s.data) = s
    rw [sanitizeList_eq_self
      (fun x hx => ⟨fun he => h.1 (he ▸ hx), fun he => h.2.1 (he ▸ hx),
        fun he => h.2.2 (he ▸ hx)⟩)]
  rw [hs]
  exact hs

/-- Witness for C6 at a clean concrete string. -/
theorem sanitize_idem_clean_witness :
    ('*' ∉ ("abc" : String).data ∧ '|' ∉ ("abc" : String).data ∧
      '\n' ∉ ("abc" : String).data) ∧
    sanitize (sanitize "abc") = sanitize "abc" :=
  ⟨by decide, sanitize_idem_clean "abc" (by decide)⟩

/-- C7: after `clear_chat` empties the session, the next read yields the
seeded welcome transcript: exactly one turn, of role `model`. -/
theorem clear_then_read (sess : Option (List Turn)) :
    ensureHistory (clear_chat sess) = initialHistory ∧
    (ensureHistory (clear_chat sess)).length = 1 ∧
    ∀ t ∈ ensureHistory (clear_chat sess), t.role = "model" := by
  refine ⟨rfl, rfl, ?_⟩
  intro t ht
  have : t = Turn.mk "model"
      ["Hi! I’m Nexus AI — your intelligent assistant. How can I help you today?"] := by
    simpa [ensureHistory, clear_chat, initialHistory] using ht
  rw [this]

/-- C8: for every input, `sanitize`'s output contains no asterisk, no
vertical bar and no newline; consequently `sanitize` is idempotent on
every string, not only on already-sanitized input. -/
theorem sanitize_output_clean (s : String) :
    ('*' ∉ (sanitize s).data ∧ '|' ∉ (sanitize s).data ∧
      '\n' ∉ (sanitize s).data) ∧
    sanitize (sanitize s) = sanitize s := by
  constructor
  · exact ⟨fun hm => (mem_sanitizeList hm).1 rfl,
      fun hm => (mem_sanitizeList hm).2.1 rfl,
      fun hm => (mem_sanitizeList hm).2.2 rfl⟩
  · show String.mk (sanitizeList (sanitizeList s.data)) = _
    rw [sanitizeList_idem]
    rfl

/-- C9: a POST with the empty message leaves the transcript unchanged
(no user turn, no model turn is appended), and the outcome does not
depend on the completion client, which is therefore never called. -/
theorem post_empty_message_noop (model : Bool)
    (generate_content generate_content' : String → Except String String)
    (sess : Option (List Turn)) :
    postRoute model generate_content sess "" = some (ensureHistory sess) ∧
    postRoute model generate_content sess "" =
      postRoute model generate_content' sess "" :=
  ⟨rfl, rfl⟩

/-- C10: the prompt-building step is total on the empty transcript and
produces `"user: \n"`: the per-turn loop runs zero times and the
last-turn text defaults to the empty string. -/
theorem assemble_empty_total : assemble ([] : List Turn) = some "user: \n" := by
  decide
